import Mathlib

/-!
# The Matrix full-node service (`man/backend.go`)

A shallow embedding of the node orchestrator of `man/backend.go`: the mining-address
resolution (`Etherbase`, `SetEtherbase`), mining control (`StartMining`), the lifecycle
(`New`, `Start`, `Stop`), the targeted block announcement (`FetcherNotify`) and
`makeExtraData`.

Conventions of the embedding.

* The receiver `s *Matrix` is an explicit state `Matrix`; a method returns its Go results
  together with the state after the call.
* Code of other packages (account manager, miner, protocol manager, fetcher, storage, ...)
  is not part of the file.  What such a call returns is an input of the embedded function,
  and the fact that the call was made is appended to the field `calls` of the state, in
  program order.  Logging calls (`log.Info`, `log.Warn`, `log.Error`) are not recorded.
* Go `int` is `Int` with explicit wrap-around to 64 bits (`wrapInt`).
* The read/write lock `s.lock` is not modelled: every method runs to completion on its own.
-/

namespace man

/-! ## Data model -/

/-- The type `common.Address` (20 bytes), read as a big-endian number;
`common.Address{}` is `0`. -/
abbrev Address := Nat

/-- The type `common.Hash`, read as a number. -/
abbrev Hash := Nat

/-- One byte of a Go `[]byte`. -/
abbrev Byte := Fin 256

/-- Errors built by `backend.go`, and errors handed back by code of other packages
(`collaborator`, told apart by a tag). -/
inductive Error where
  /-- The message "manbase must be explicitly specified". -/
  | manbaseUnspecified
  /-- The message "manbase missing: %v" around the error of `Etherbase`. -/
  | manbaseMissing (cause : Error)
  /-- The message "signer missing: %v" around the error of `accountManager.Find` (which
  may be nil). -/
  | signerMissing (cause : Option Nat)
  /-- The message "invalid peer config: light peer count (%d) >= total peer count (%d)". -/
  | invalidPeerConfig (lightPeers maxPeers : Int)
  /-- The message "can't run man.Matrix in light sync mode, use les.LightMatrix". -/
  | lightSync
  /-- The message "invalid sync mode %d". -/
  | invalidSyncMode (mode : Nat)
  /-- The message "Blockchain DB version mismatch (%d / %d). Run gman upgradedb." -/
  | versionMismatch (bcVersion supported : Nat)
  /-- An error value returned by a function of another package. -/
  | collaborator (tag : Nat)
  deriving DecidableEq, Repr

/-- The struct `accounts.Account`, by its address (the URL is left empty by this file). -/
structure Account where
  Address : Address
  deriving DecidableEq, Repr

/-- An `accounts.Wallet` as seen at the time of a call: its URL and what `Accounts()`
returns. -/
structure Wallet where
  URL : Nat
  Accounts : List Account
  deriving DecidableEq, Repr

/-- The `accounts.Manager` as seen at the time of a call: what `Wallets()` returns and
what `Find(account)` returns (a wallet, possibly nil, and an error, possibly nil, given
by its tag).  `Find` is code of package `accounts`; nothing is assumed about it. -/
structure Manager where
  Wallets : List Wallet
  Find : Account → Option Wallet × Option Nat

/-- The part of `clique.Clique` that `Authorize(signer, signFn)` writes: the signer
address and the signing function, given by the wallet whose `SignHash` it is. -/
structure Clique where
  signer : Address
  signFn : Option Wallet
  deriving DecidableEq, Repr

/-- The method `clique.Authorize(signer, signFn)`. -/
def Clique.Authorize (_c : Clique) (signer : Address) (wallet : Wallet) : Clique :=
  { signer := signer, signFn := some wallet }

/-- The field `engine consensus.Engine`: the type assertion `s.engine.(*clique.Clique)`
succeeds exactly on `clique`. -/
inductive Engine where
  | clique (c : Clique)
  | other
  deriving DecidableEq, Repr

/-- The type `discover.NodeID`, by the text its `String()` method returns. -/
structure NodeID where
  String : List Char
  deriving DecidableEq, Repr

/-- A connected `*peer` of the protocol manager: the identity of the remote node (the
`ID()` of the embedded `*p2p.Peer`) and its connection handle. -/
structure peer where
  ID : NodeID
  conn : Nat
  deriving DecidableEq, Repr

/-- A method value `peer.RequestOneHeader` or `peer.RequestBodies`, bound to its peer. -/
inductive Requester where
  | RequestOneHeader (p : peer)
  | RequestBodies (p : peer)
  deriving DecidableEq, Repr

/-- The arguments of one call `fetcher.Notify(peer, hash, number, time, headerFetcher,
bodyFetcher)`. -/
structure Announce where
  peer : List Char
  hash : Hash
  number : Nat
  time : Nat
  fetchHeader : Requester
  fetchBodies : Requester
  deriving DecidableEq, Repr

/-- Calls into code of other packages, as recorded in `Matrix.calls`. -/
inductive Call where
  | Wallets
  | Accounts (w : Wallet)
  | Find (a : Account)
  | minerSetEtherbase (a : Address)
  | goMinerStart (eb : Address)
  | startBloomHandlers
  | NewPublicNetAPI
  | protocolManagerStart (maxPeers : Int)
  | lesServerStart
  | fetcherNotify (a : Announce)
  | bloomIndexerClose
  | blockchainStop
  | protocolManagerStop
  | lesServerStop
  | txPoolStop
  | minerStop
  | eventMuxStop
  | chainDbClose
  | broadTxStop
  | blockchainSetHead
  | WriteChainConfig
  | bloomIndexerStart
  | minerSetExtra (extra : List Byte)
  deriving DecidableEq, Repr

/-- The fields of `Config` read by this file; `LightServ` and `LightPeers` are of the Go
type `int`. -/
structure Config where
  SyncMode : Nat
  SkipBcVersionCheck : Bool
  Etherbase : Address
  ExtraData : List Byte
  LightServ : Int
  LightPeers : Int
  deriving DecidableEq, Repr

/-- The type `peerSet`: the map `peers` from the 16-character peer id to the peer, as an
association list. -/
structure peerSet where
  peers : List (List Char × peer)
  deriving DecidableEq, Repr

/-- The method `peerSet.Peer(id)`: the map lookup, nil when the key is absent. -/
def peerSet.Peer (ps : peerSet) (id : List Char) : Option peer :=
  ps.peers.lookup id

/-- The fields of `ProtocolManager` used by this file: the flag `acceptTxs` (a `uint32`)
and the peer set. -/
structure ProtocolManager where
  acceptTxs : Nat
  Peers : peerSet
  deriving DecidableEq, Repr

/-- The state of the struct `Matrix` that the embedded methods read or write.
`shutdownChan` is `true` once the channel is closed; `lesServer` is `true` when the field
is not nil; `calls` is the record of calls into other packages, oldest first. -/
structure Matrix where
  config : Config
  shutdownChan : Bool
  protocolManager : ProtocolManager
  lesServer : Bool
  engine : Engine
  manbase : Address
  calls : List Call
  deriving DecidableEq, Repr

/-- Record one call into another package. -/
def Matrix.call (s : Matrix) (c : Call) : Matrix :=
  { s with calls := s.calls ++ [c] }

/-! ## Mining address -/

/-- The method `Matrix.Etherbase`: the Go results `(eb, err)` and the state after. -/
def Matrix.Etherbase (s : Matrix) (am : Manager) : (Address × Option Error) × Matrix :=
  let manbase := s.manbase
  if manbase ≠ 0 then
    ((manbase, none), s)
  else
    let s1 := s.call Call.Wallets
    match am.Wallets with
    | w :: _ =>
      let s2 := s1.call (Call.Accounts w)
      match w.Accounts with
      | a :: _ =>
        let manbase := a.Address
        ((manbase, none), { s2 with manbase := manbase })
      | [] => ((0, some Error.manbaseUnspecified), s2)
    | [] => ((0, some Error.manbaseUnspecified), s1)

/-- The method `Matrix.SetEtherbase`. -/
def Matrix.SetEtherbase (s : Matrix) (manbase : Address) : Matrix :=
  ({ s with manbase := manbase }).call (Call.minerSetEtherbase manbase)

/-- The method `Matrix.StartMining`: the returned error (nil is `none`) and the state
after.  `go s.miner.Start(eb)` is recorded as the call `goMinerStart eb`. -/
def Matrix.StartMining (s : Matrix) (am : Manager) (loc : Bool) : Option Error × Matrix :=
  match s.Etherbase am with
  | ((_, some err), s1) => (some (Error.manbaseMissing err), s1)
  | ((eb, none), s1) =>
    let authorized : Option Error × Matrix :=
      match s1.engine with
      | Engine.clique c =>
        let s2 := s1.call (Call.Find { Address := eb })
        match am.Find { Address := eb } with
        | (some wallet, none) => (none, { s2 with engine := Engine.clique (c.Authorize eb wallet) })
        | (_, err) => (some (Error.signerMissing err), s2)
      | Engine.other => (none, s1)
    match authorized with
    | (some err, s2) => (some err, s2)
    | (none, s2) =>
      let s3 := if loc then
        { s2 with protocolManager := { s2.protocolManager with acceptTxs := 1 } }
      else s2
      (none, s3.call (Call.goMinerStart eb))

/-! ## Lifecycle: `Start` and `Stop` -/

/-- Go `int` arithmetic on a 64-bit platform: the result of an operation is reduced to
the range `-2^63 ≤ x < 2^63` by wrap-around. -/
def wrapInt (x : Int) : Int :=
  (x + 2 ^ 63) % 2 ^ 64 - 2 ^ 63

/-- The values of the Go type `int` (64 bits). -/
def isInt (x : Int) : Prop :=
  -(2 ^ 63) ≤ x ∧ x < 2 ^ 63

/-- The field of `p2p.Server` read by `Start`, of the Go type `int`. -/
structure Server where
  MaxPeers : Int
  deriving DecidableEq, Repr

/-- The method `Matrix.Start`: the returned error and the state after. -/
def Matrix.Start (s : Matrix) (srvr : Server) : Option Error × Matrix :=
  let s1 := s.call Call.startBloomHandlers
  let s2 := s1.call Call.NewPublicNetAPI
  let maxPeers := srvr.MaxPeers
  let budget : Except Error Int :=
    if s2.config.LightServ > 0 then
      if s2.config.LightPeers ≥ srvr.MaxPeers then
        Except.error (Error.invalidPeerConfig s2.config.LightPeers srvr.MaxPeers)
      else
        Except.ok (wrapInt (maxPeers - s2.config.LightPeers))
    else
      Except.ok maxPeers
  match budget with
  | Except.error err => (some err, s2)
  | Except.ok maxPeers =>
    let s3 := s2.call (Call.protocolManagerStart maxPeers)
    let s4 := if s3.lesServer then s3.call Call.lesServerStart else s3
    (none, s4)

/-- How a call ends: it returns its results, or it panics. -/
inductive Outcome (α : Type) where
  | returned (v : α)
  | panicked
  deriving DecidableEq, Repr

/-- The method `Matrix.Stop`: how the call ends and the state at that point.  The `Stop`
and `Close` methods of the other components are recorded and taken to return;
`close(s.shutdownChan)` on a channel that is already closed is the Go run-time panic
"close of closed channel". -/
def Matrix.Stop (s : Matrix) : Outcome (Option Error) × Matrix :=
  let s := s.call Call.bloomIndexerClose
  let s := s.call Call.blockchainStop
  let s := s.call Call.protocolManagerStop
  let s := if s.lesServer then s.call Call.lesServerStop else s
  let s := s.call Call.txPoolStop
  let s := s.call Call.minerStop
  let s := s.call Call.eventMuxStop
  let s := s.call Call.chainDbClose
  let s := s.call Call.broadTxStop
  if s.shutdownChan then
    (Outcome.panicked, s)
  else
    (Outcome.returned none, { s with shutdownChan := true })

/-! ## Targeted announcement: `FetcherNotify` -/

/-- Modelled from the spec: the duty of an identity (section 3, "Role"); the constants
`common.RoleValidator` and `common.RoleBroadcast` are declared outside this file. -/
inductive Role where
  | Producer
  | Validator
  | Broadcast
  | Passive
  deriving DecidableEq, Repr

/-- Modelled from the spec: `ca.GetRolesByGroup(group)`, a function of package `ca`
outside this file: of the identities of the registry, those whose role is in the group,
in the order of the registry. -/
def GetRolesByGroup (registry : List (NodeID × Role)) (group : List Role) : List NodeID :=
  (registry.filter (fun e => decide (e.2 ∈ group))).map Prod.fst

/-- The key of a peer in the peer set: `id.String()[:16]`. -/
def NodeID.key (id : NodeID) : List Char :=
  id.String.take 16

/-- The loop `for _, id := range ids` of `FetcherNotify`; `i` counts the iterations and
`now i` is what `time.Now()` returns in iteration `i`. -/
def Matrix.notifyLoop (hash : Hash) (number : Nat) (now : Nat → Nat) :
    Matrix → Nat → List NodeID → Matrix
  | s, _, [] => s
  | s, i, id :: ids =>
    match s.protocolManager.Peers.Peer id.key with
    | none => Matrix.notifyLoop hash number now s (i + 1) ids
    | some peer =>
      let s1 := s.call (Call.fetcherNotify
        { peer := id.key, hash := hash, number := number, time := now i,
          fetchHeader := Requester.RequestOneHeader peer,
          fetchBodies := Requester.RequestBodies peer })
      Matrix.notifyLoop hash number now s1 (i + 1) ids

/-- The method `Matrix.FetcherNotify`; `registry` is the state of package `ca` that
`ca.GetRolesByGroup` reads. -/
def Matrix.FetcherNotify (s : Matrix) (registry : List (NodeID × Role)) (now : Nat → Nat)
    (hash : Hash) (number : Nat) : Matrix :=
  let ids := GetRolesByGroup registry [Role.Validator, Role.Broadcast]
  Matrix.notifyLoop hash number now s 0 ids

/-- The `fetcher.Notify` calls of a call record, by their arguments. -/
def announcements (calls : List Call) : List Announce :=
  calls.filterMap (fun c => match c with
    | Call.fetcherNotify a => some a
    | _ => none)

/-- The announcements issued by a call that leads from state `s` to state `s2`: the
`fetcher.Notify` calls that `s2` records after the calls of `s`. -/
def Matrix.issued (s s2 : Matrix) : List Announce :=
  announcements (s2.calls.drop s.calls.length)

/-! ## Construction: `makeExtraData` and `New` -/

/-- The function `makeExtraData`.  `defaultExtra` is what `rlp.EncodeToBytes` returns for
the default extra data (version, "gman", Go version, operating system), and
`MaximumExtraDataSize` is the constant `params.MaximumExtraDataSize`. -/
def makeExtraData (defaultExtra : List Byte) (MaximumExtraDataSize : Nat)
    (extra : List Byte) : List Byte :=
  let extra := if extra.length = 0 then defaultExtra else extra
  let extra := if extra.length > MaximumExtraDataSize then [] else extra
  extra

/-- The chain database, by the one entry this file reads and writes itself: the version
marker of `rawdb.ReadDatabaseVersion` and `rawdb.WriteDatabaseVersion` (`0` when the
marker is absent). -/
structure Database where
  version : Nat
  deriving DecidableEq, Repr

/-- The error result `genesisErr` of `core.SetupGenesisBlock`: a
`*params.ConfigCompatError`, or another error (by its tag). -/
inductive GenesisError where
  | ConfigCompatError
  | otherError (tag : Nat)
  deriving DecidableEq, Repr

/-- What `New` takes from other packages: constants, and the results of the constructors
it calls (an error is given by its tag, `none` is a nil error). -/
structure Collaborators where
  LightSync : Nat
  IsValid : Nat → Bool
  BlockChainVersion : Nat
  MaximumExtraDataSize : Nat
  defaultExtra : List Byte
  CreateDB : Option Nat
  genesisErr : Option GenesisError
  CreateConsensusEngine : Engine
  NewBlockChain : Option Nat
  NewProtocolManager : Except Nat ProtocolManager
  minerNew : Option Nat
  reelectionNew : Option Nat
  randomNew : Option Nat
  topNodeStart : Option Nat
  blockgenorNew : Option Nat
  NewBlockVerify : Option Nat

/-- The version check of `New` (the block `if !config.SkipBcVersionCheck`): the error it
returns, if any, and the database after. -/
def New.versionCheck (env : Collaborators) (config : Config) (chainDb : Database) :
    Option Error × Database :=
  if !config.SkipBcVersionCheck then
    let bcVersion := chainDb.version
    if bcVersion ≠ env.BlockChainVersion ∧ bcVersion ≠ 0 then
      (some (Error.versionMismatch bcVersion env.BlockChainVersion), chainDb)
    else
      (none, { chainDb with version := env.BlockChainVersion })
  else
    (none, chainDb)

/-- The steps of `New` after the version check, each of which returns `nil, err` when its
constructor fails.  Constructors of other packages that return no error (`NewTxPool`,
`NewOracle`, `NewDepositInfo`, `NewBroadCast`, `NewTopNodeService` and its setters) are
left out, and so is `NewLeaderIdentityService`, whose error is overwritten unread.  A new
node has an open shutdown channel and no light server. -/
def New.assemble (env : Collaborators) (config : Config) : Except Error Matrix :=
  match env.NewBlockChain with
  | some e => Except.error (Error.collaborator e)
  | none =>
    let calls0 : List Call :=
      if env.genesisErr = some GenesisError.ConfigCompatError then
        [Call.blockchainSetHead, Call.WriteChainConfig]
      else []
    let calls1 := calls0 ++ [Call.bloomIndexerStart]
    match env.NewProtocolManager with
    | Except.error e => Except.error (Error.collaborator e)
    | Except.ok pm =>
      match env.minerNew with
      | some e => Except.error (Error.collaborator e)
      | none =>
        let calls2 := calls1 ++
          [Call.minerSetExtra (makeExtraData env.defaultExtra env.MaximumExtraDataSize
            config.ExtraData)]
        match env.reelectionNew with
        | some e => Except.error (Error.collaborator e)
        | none =>
          match env.randomNew with
          | some e => Except.error (Error.collaborator e)
          | none =>
            match env.topNodeStart with
            | some e => Except.error (Error.collaborator e)
            | none =>
              match env.blockgenorNew with
              | some e => Except.error (Error.collaborator e)
              | none =>
                match env.NewBlockVerify with
                | some e => Except.error (Error.collaborator e)
                | none =>
                  Except.ok
                    { config := config, shutdownChan := false, protocolManager := pm,
                      lesServer := false, engine := env.CreateConsensusEngine,
                      manbase := config.Etherbase, calls := calls2 }

/-- The function `New`: the Go results `(*Matrix, error)` and the chain database after
the call; `disk` is the database that `CreateDB` opens.  A nil `*Matrix` is `none`. -/
def New (env : Collaborators) (config : Config) (disk : Database) :
    (Option Matrix × Option Error) × Database :=
  if config.SyncMode = env.LightSync then
    ((none, some Error.lightSync), disk)
  else if !env.IsValid config.SyncMode then
    ((none, some (Error.invalidSyncMode config.SyncMode)), disk)
  else
    match env.CreateDB with
    | some e => ((none, some (Error.collaborator e)), disk)
    | none =>
      let chainDb := disk
      match env.genesisErr with
      | some (GenesisError.otherError e) => ((none, some (Error.collaborator e)), chainDb)
      | _ =>
        match New.versionCheck env config chainDb with
        | (some err, chainDb) => ((none, some err), chainDb)
        | (none, chainDb) =>
          match New.assemble env config with
          | Except.error err => ((none, some err), chainDb)
          | Except.ok man => ((some man, none), chainDb)

/-! ## Example states -/

/-- A protocol manager before initial sync has completed (`acceptTxs = 0`), without
peers. -/
def pm0 : ProtocolManager :=
  { acceptTxs := 0, Peers := { peers := [] } }

/-- A configuration with no mining address. -/
def config0 : Config :=
  { SyncMode := 0, SkipBcVersionCheck := false, Etherbase := 0, ExtraData := [],
    LightServ := 0, LightPeers := 0 }

/-- A node with no mining address and a proof-of-work engine. -/
def node0 : Matrix :=
  { config := config0, shutdownChan := false, protocolManager := pm0, lesServer := false,
    engine := Engine.other, manbase := 0, calls := [] }

/-- A node with no mining address and a proof-of-authority engine without signer. -/
def nodeClique : Matrix :=
  { node0 with engine := Engine.clique { signer := 0, signFn := none } }

/-- An account manager with the given wallets whose `Find` looks the account up in these
wallets. -/
def managerOf (wallets : List Wallet) : Manager :=
  { Wallets := wallets,
    Find := fun a =>
      match wallets.find? (fun w => decide (a ∈ w.Accounts)) with
      | some w => (some w, none)
      | none => (none, some 1) }

/-- An account manager that lists the given wallets and whose `Find` then locates no
wallet (the wallet went away between the two calls). -/
def managerLost (wallets : List Wallet) : Manager :=
  { Wallets := wallets, Find := fun _ => (none, some 1) }

/-- The identity A of the committee example, by its 128 hexadecimal digits. -/
def idA : NodeID :=
  { String := List.replicate 128 'a' }

/-- The identity B of the committee example. -/
def idB : NodeID :=
  { String := List.replicate 128 'b' }

/-- The identity C of the committee example. -/
def idC : NodeID :=
  { String := List.replicate 128 'c' }

/-- The committee example: A is validator, B is broadcast node, C is passive. -/
def committeeABC : List (NodeID × Role) :=
  [(idA, Role.Validator), (idB, Role.Broadcast), (idC, Role.Passive)]

/-- A node to which only A (connection 1) and C (connection 3) are connected. -/
def nodeAC : Matrix :=
  { node0 with
    protocolManager :=
      { acceptTxs := 0,
        Peers := { peers := [(List.replicate 16 'a', { ID := idA, conn := 1 }),
          (List.replicate 16 'c', { ID := idC, conn := 3 })] } } }

/-- The identity X of the collision example: 16 times `a`, then 112 times `e`. -/
def idX : NodeID :=
  { String := List.replicate 16 'a' ++ List.replicate 112 'e' }

/-- The identity Y of the collision example: 16 times `a`, then 112 times `f`; it has its
first 16 characters in common with X. -/
def idY : NodeID :=
  { String := List.replicate 16 'a' ++ List.replicate 112 'f' }

/-- The collision example: X is validator, Y is passive. -/
def registryXY : List (NodeID × Role) :=
  [(idX, Role.Validator), (idY, Role.Passive)]

/-- A node to which only Y is connected (connection 3), under its 16-character key. -/
def nodeY : Matrix :=
  { node0 with
    protocolManager :=
      { acceptTxs := 0,
        Peers := { peers := [(List.replicate 16 'a', { ID := idY, conn := 3 })] } } }

/-- A clock for the examples: iteration `i` reads the time `1000 + i`. -/
def clock (i : Nat) : Nat :=
  1000 + i

/-- Collaborators all of whose constructors succeed; the supported chain version is 3
and sync modes 0, 1, 2 are valid, 2 being light sync. -/
def env0 : Collaborators :=
  { LightSync := 2, IsValid := fun m => decide (m ≤ 2), BlockChainVersion := 3,
    MaximumExtraDataSize := 32, defaultExtra := [], CreateDB := none, genesisErr := none,
    CreateConsensusEngine := Engine.other, NewBlockChain := none,
    NewProtocolManager := Except.ok pm0, minerNew := none, reelectionNew := none,
    randomNew := none, topNodeStart := none, blockgenorNew := none, NewBlockVerify := none }

/-- A node that serves light clients and reserves `lightPeers` peer slots for them. -/
def nodeLight (lightPeers : Int) : Matrix :=
  { node0 with config := { config0 with LightServ := 1, LightPeers := lightPeers } }

/-! ## Theorems: mining address -/

/-- C1: in a state whose `manbase` is not the zero address, `Etherbase` returns that
address and a nil error and leaves the whole state as it is: no call to the account
manager is recorded and `manbase` is unchanged.  This is so in particular in the state
after `SetEtherbase a` with `a` not zero. -/
theorem Etherbase_configured (s : Matrix) (am : Manager) :
    (s.manbase ≠ 0 → s.Etherbase am = ((s.manbase, none), s)) ∧
    (∀ a : Address, a ≠ 0 →
      (s.SetEtherbase a).Etherbase am = ((a, none), s.SetEtherbase a)) := by
  constructor
  · intro h
    simp [Matrix.Etherbase, h]
  · intro a ha
    simp [Matrix.Etherbase, Matrix.SetEtherbase, Matrix.call, ha]

/-- Witness of C1 at the node `node0` after `SetEtherbase 5`, with one wallet holding
account 7. -/
theorem Etherbase_configured_witness :
    (node0.SetEtherbase 5).Etherbase (managerOf [{ URL := 1, Accounts := [{ Address := 7 }] }])
      = ((5, none), node0.SetEtherbase 5) :=
  (Etherbase_configured (node0.SetEtherbase 5)
    (managerOf [{ URL := 1, Accounts := [{ Address := 7 }] }])).1 (by decide)

/-- C2, as amended: when no mining address is configured, the first wallet exists and
its first account has a non-zero address, the first `Etherbase` call returns that
address with a nil error, stores it as `manbase` after asking the account manager once
(`Wallets`, then `Accounts` of the first wallet), and a second call, whatever the account
manager holds by then, returns the same address and leaves the state, call record
included, as it is. -/
theorem Etherbase_autoconfigure_cached (s : Matrix) (am am2 : Manager)
    (w : Wallet) (ws : List Wallet) (a : Account) (as : List Account)
    (h0 : s.manbase = 0) (hw : am.Wallets = w :: ws) (ha : w.Accounts = a :: as)
    (hnz : a.Address ≠ 0) :
    (s.Etherbase am).1 = (a.Address, none) ∧
    (s.Etherbase am).2 =
      { s with manbase := a.Address, calls := s.calls ++ [Call.Wallets, Call.Accounts w] } ∧
    (s.Etherbase am).2.Etherbase am2 = ((a.Address, none), (s.Etherbase am).2) := by
  have h1 : s.Etherbase am = ((a.Address, none),
      { s with manbase := a.Address, calls := s.calls ++ [Call.Wallets, Call.Accounts w] }) := by
    simp [Matrix.Etherbase, Matrix.call, h0, hw, ha]
  rw [h1]
  refine ⟨rfl, rfl, ?_⟩
  simp [Matrix.Etherbase, hnz]

/-- Witness of C2 (amended): one wallet with account 7, replaced by a wallet with
account 9 before the second call. -/
theorem Etherbase_autoconfigure_cached_witness :
    (node0.Etherbase (managerOf [{ URL := 1, Accounts := [{ Address := 7 }] }])).1 = (7, none) ∧
    ((node0.Etherbase (managerOf [{ URL := 1, Accounts := [{ Address := 7 }] }])).2.Etherbase
      (managerOf [{ URL := 2, Accounts := [{ Address := 9 }] }])).1 = (7, none) :=
  have h := Etherbase_autoconfigure_cached node0
    (managerOf [{ URL := 1, Accounts := [{ Address := 7 }] }])
    (managerOf [{ URL := 2, Accounts := [{ Address := 9 }] }])
    { URL := 1, Accounts := [{ Address := 7 }] } [] { Address := 7 } []
    rfl rfl rfl (by decide)
  ⟨h.1, by rw [h.2.2]⟩

/-- C2 fails as stated, in two ways.  With an empty first wallet and account 7 in the
second wallet an account is available, yet the first call fails.  With a first account
whose address is the zero address the first call returns it, nothing is cached, and the
second call asks the account manager again and returns the then first account 9. -/
theorem Etherbase_cache_counterexample :
    (node0.Etherbase (managerOf
      [{ URL := 1, Accounts := [] }, { URL := 2, Accounts := [{ Address := 7 }] }])).1
      = (0, some Error.manbaseUnspecified) ∧
    (node0.Etherbase (managerOf [{ URL := 1, Accounts := [{ Address := 0 }] }])).1
      = (0, none) ∧
    ((node0.Etherbase (managerOf [{ URL := 1, Accounts := [{ Address := 0 }] }])).2.Etherbase
      (managerOf [{ URL := 2, Accounts := [{ Address := 9 }] }])).1 = (9, none) ∧
    ((node0.Etherbase (managerOf [{ URL := 1, Accounts := [{ Address := 0 }] }])).2.Etherbase
      (managerOf [{ URL := 2, Accounts := [{ Address := 9 }] }])).2.calls
      = [Call.Wallets, Call.Accounts { URL := 1, Accounts := [{ Address := 0 }] },
         Call.Wallets, Call.Accounts { URL := 2, Accounts := [{ Address := 9 }] }] := by
  refine ⟨rfl, rfl, rfl, rfl⟩

/-- What `Etherbase` leaves alone: every field but `manbase` and the call record, to
which it only appends `Wallets` and `Accounts` calls. -/
theorem Etherbase_frame (s : Matrix) (am : Manager) :
    (s.Etherbase am).2.protocolManager = s.protocolManager ∧
    (s.Etherbase am).2.engine = s.engine ∧
    (s.Etherbase am).2.config = s.config ∧
    (s.Etherbase am).2.shutdownChan = s.shutdownChan ∧
    (s.Etherbase am).2.lesServer = s.lesServer ∧
    ∃ extra, (s.Etherbase am).2.calls = s.calls ++ extra ∧
      ∀ c ∈ extra, c = Call.Wallets ∨ ∃ w, c = Call.Accounts w := by
  rcases am with ⟨wallets, find⟩
  by_cases hmb : s.manbase = 0
  · cases wallets with
    | nil =>
      refine ⟨?_, ?_, ?_, ?_, ?_, [Call.Wallets], ?_, ?_⟩ <;>
        simp [Matrix.Etherbase, Matrix.call, hmb]
    | cons w ws =>
      cases hacc : w.Accounts with
      | nil =>
        refine ⟨?_, ?_, ?_, ?_, ?_, [Call.Wallets, Call.Accounts w], ?_, ?_⟩ <;>
          simp [Matrix.Etherbase, Matrix.call, hmb, hacc]
      | cons a as =>
        refine ⟨?_, ?_, ?_, ?_, ?_, [Call.Wallets, Call.Accounts w], ?_, ?_⟩ <;>
          simp [Matrix.Etherbase, Matrix.call, hmb, hacc]
  · refine ⟨?_, ?_, ?_, ?_, ?_, [], ?_, ?_⟩ <;> simp [Matrix.Etherbase, hmb]

/-- C4: when `StartMining` returns a nil error, `acceptTxs` is 1 afterwards if `local` is
true, and has the value it had before the call if `local` is false. -/
theorem StartMining_acceptTxs (s : Matrix) (am : Manager) (loc : Bool)
    (h : (s.StartMining am loc).1 = none) :
    (loc = true → (s.StartMining am loc).2.protocolManager.acceptTxs = 1) ∧
    (loc = false → (s.StartMining am loc).2.protocolManager.acceptTxs
      = s.protocolManager.acceptTxs) := by
  have hf := (Etherbase_frame s am).1
  revert h
  unfold Matrix.StartMining
  generalize s.Etherbase am = r at hf ⊢
  rcases r with ⟨⟨eb, _ | err⟩, s1⟩
  · simp only at hf
    rw [← hf]
    rcases s1 with ⟨cfg1, sh1, pm1, les1, eng1, mb1, calls1⟩
    cases eng1 with
    | other => cases loc <;> simp [Matrix.call]
    | clique c =>
      rcases hfind : am.Find { Address := eb } with ⟨_ | wlt, _ | e⟩ <;>
        cases loc <;> simp [Matrix.call, hfind]
  · simp

/-- Witness of C4: a node with mining address 5 that has not finished its initial sync
(`acceptTxs = 0`); local mining sets the flag, network mining leaves it at 0. -/
theorem StartMining_acceptTxs_witness :
    ((node0.SetEtherbase 5).StartMining (managerOf []) true).2.protocolManager.acceptTxs = 1 ∧
    ((node0.SetEtherbase 5).StartMining (managerOf []) false).2.protocolManager.acceptTxs = 0 :=
  ⟨(StartMining_acceptTxs (node0.SetEtherbase 5) (managerOf []) true rfl).1 rfl,
   (StartMining_acceptTxs (node0.SetEtherbase 5) (managerOf []) false rfl).2 rfl⟩

/-- C5, as amended: when `StartMining` returns an error, the protocol manager (with its
flag `acceptTxs`) and the engine (with its signer authorization) are as before the call,
and the call record has only grown by `Wallets`, `Accounts` and `Find` calls, so the
miner is not started.  The stored mining address is the one `Etherbase` left; it is the
address from before the call when an address was configured, when the error is "manbase
missing", or when `Find` locates the first account of the first wallet. -/
theorem StartMining_error_state (s : Matrix) (am : Manager) (loc : Bool)
    (h : (s.StartMining am loc).1 ≠ none) :
    (s.StartMining am loc).2.protocolManager = s.protocolManager ∧
    (s.StartMining am loc).2.engine = s.engine ∧
    (∃ extra, (s.StartMining am loc).2.calls = s.calls ++ extra ∧
      ∀ c ∈ extra, c = Call.Wallets ∨ (∃ w, c = Call.Accounts w) ∨ ∃ a, c = Call.Find a) ∧
    (s.StartMining am loc).2.manbase = (s.Etherbase am).2.manbase ∧
    ((s.manbase ≠ 0 ∨ (∃ e, (s.StartMining am loc).1 = some (Error.manbaseMissing e)) ∨
        (∀ w a, am.Wallets.head? = some w → w.Accounts.head? = some a →
          ∃ w2, am.Find a = (some w2, none))) →
      (s.StartMining am loc).2.manbase = s.manbase) := by
  rcases s with ⟨cfg, sh, pm, les, eng, mb, calls⟩
  rcases am with ⟨wallets, find⟩
  by_cases hmb : mb = 0
  · subst hmb
    cases wallets with
    | nil =>
      refine ⟨?_, ?_, ⟨[Call.Wallets], ?_, ?_⟩, ?_, ?_⟩ <;>
        simp [Matrix.StartMining, Matrix.Etherbase, Matrix.call]
    | cons w ws =>
      cases hacc : w.Accounts with
      | nil =>
        refine ⟨?_, ?_, ⟨[Call.Wallets, Call.Accounts w], ?_, ?_⟩, ?_, ?_⟩ <;>
          simp [Matrix.StartMining, Matrix.Etherbase, Matrix.call, hacc]
      | cons a as =>
        cases eng with
        | other =>
          exact absurd (by simp [Matrix.StartMining, Matrix.Etherbase, Matrix.call, hacc]) h
        | clique c =>
          have hfa : find a = find { Address := a.Address } := rfl
          rcases hfind : find { Address := a.Address } with ⟨_ | wlt, _ | e⟩
          · refine ⟨?_, ?_, ⟨[Call.Wallets, Call.Accounts w,
              Call.Find { Address := a.Address }], ?_, ?_⟩, ?_, ?_⟩ <;>
              simp [Matrix.StartMining, Matrix.Etherbase, Matrix.call, hacc, hfind, hfa]
          · refine ⟨?_, ?_, ⟨[Call.Wallets, Call.Accounts w,
              Call.Find { Address := a.Address }], ?_, ?_⟩, ?_, ?_⟩ <;>
              simp [Matrix.StartMining, Matrix.Etherbase, Matrix.call, hacc, hfind, hfa]
          · exact absurd
              (by simp [Matrix.StartMining, Matrix.Etherbase, Matrix.call, hacc, hfind]) h
          · refine ⟨?_, ?_, ⟨[Call.Wallets, Call.Accounts w,
              Call.Find { Address := a.Address }], ?_, ?_⟩, ?_, ?_⟩ <;>
              simp [Matrix.StartMining, Matrix.Etherbase, Matrix.call, hacc, hfind, hfa]
  · cases eng with
    | other => exact absurd (by simp [Matrix.StartMining, Matrix.Etherbase, hmb]) h
    | clique c =>
      rcases hfind : find { Address := mb } with ⟨_ | wlt, _ | e⟩
      · refine ⟨?_, ?_, ⟨[Call.Find { Address := mb }], ?_, ?_⟩, ?_, ?_⟩ <;>
          simp [Matrix.StartMining, Matrix.Etherbase, Matrix.call, hmb, hfind]
      · refine ⟨?_, ?_, ⟨[Call.Find { Address := mb }], ?_, ?_⟩, ?_, ?_⟩ <;>
          simp [Matrix.StartMining, Matrix.Etherbase, Matrix.call, hmb, hfind]
      · exact absurd (by simp [Matrix.StartMining, Matrix.Etherbase, Matrix.call, hmb, hfind]) h
      · refine ⟨?_, ?_, ⟨[Call.Find { Address := mb }], ?_, ?_⟩, ?_, ?_⟩ <;>
          simp [Matrix.StartMining, Matrix.Etherbase, Matrix.call, hmb, hfind]

/-- Witness of C5 (amended): a proof-of-authority node with mining address 5 whose
account manager has no wallet for it; `StartMining` fails with "signer missing" and the
mining address, the flag and the engine are as before. -/
theorem StartMining_error_state_witness :
    ((nodeClique.SetEtherbase 5).StartMining (managerOf []) true).1
      = some (Error.signerMissing (some 1)) ∧
    ((nodeClique.SetEtherbase 5).StartMining (managerOf []) true).2.manbase = 5 ∧
    ((nodeClique.SetEtherbase 5).StartMining (managerOf []) true).2.protocolManager = pm0 :=
  have h := StartMining_error_state (nodeClique.SetEtherbase 5) (managerOf []) true
    (by simp [Matrix.StartMining, Matrix.Etherbase, Matrix.SetEtherbase, Matrix.call,
      nodeClique, managerOf])
  ⟨rfl, h.2.2.2.2 (Or.inl (by decide)), h.1⟩

/-- C5 fails as stated: on a proof-of-authority node without mining address, with one
wallet holding account 7 that `Find` does not locate, `StartMining` returns the error
"signer missing" and the stored mining address has changed from 0 to 7. -/
theorem StartMining_error_counterexample :
    nodeClique.manbase = 0 ∧
    (nodeClique.StartMining (managerLost [{ URL := 1, Accounts := [{ Address := 7 }] }]) true).1
      = some (Error.signerMissing (some 1)) ∧
    (nodeClique.StartMining
      (managerLost [{ URL := 1, Accounts := [{ Address := 7 }] }]) true).2.manbase = 7 := by
  refine ⟨rfl, rfl, rfl⟩

/-! ## Theorems: targeted announcement -/

/-- The announcements of a call record made of `fetcher.Notify` calls only. -/
theorem announcements_map (new : List Announce) :
    announcements (new.map Call.fetcherNotify) = new := by
  induction new with
  | nil => rfl
  | cons a new ih => simpa [announcements] using ih

/-- A peer found under a key is an entry of the peer table. -/
theorem Peer_mem (ps : peerSet) (k : List Char) (p : peer) (h : ps.Peer k = some p) :
    (k, p) ∈ ps.peers := by
  rcases ps with ⟨l⟩
  simp only [peerSet.Peer] at h
  induction l with
  | nil => simp [List.lookup] at h
  | cons e l ih =>
    rcases e with ⟨k2, p2⟩
    by_cases hk : k = k2
    · subst hk
      simp [List.lookup] at h
      simp [h]
    · have hb : (k == k2) = false := by simpa using hk
      simp only [List.lookup, hb] at h
      exact List.mem_cons_of_mem _ (ih h)

/-- The loop of `FetcherNotify` appends to the call record one `fetcher.Notify` call for
each identity of `ids` whose first 16 characters are a key of the peer set, and changes
nothing else. -/
theorem notifyLoop_spec (hash : Hash) (number : Nat) (now : Nat → Nat) (ids : List NodeID) :
    ∀ (s : Matrix) (i : Nat), ∃ new : List Announce,
      Matrix.notifyLoop hash number now s i ids
        = { s with calls := s.calls ++ new.map Call.fetcherNotify } ∧
      (∀ k, new.countP (fun a => decide (a.peer = k))
        = if (s.protocolManager.Peers.Peer k).isSome
          then ids.countP (fun id => decide (List.take 16 id.String = k)) else 0) ∧
      (∀ a ∈ new, a.hash = hash ∧ a.number = number ∧
        (∃ id ∈ ids, a.peer = List.take 16 id.String) ∧
        ∃ p, s.protocolManager.Peers.Peer a.peer = some p ∧
          a.fetchHeader = Requester.RequestOneHeader p ∧
          a.fetchBodies = Requester.RequestBodies p) ∧
      new.length ≤ ids.length := by
  induction ids with
  | nil =>
    intro s i
    exact ⟨[], by simp [Matrix.notifyLoop], by simp, by simp, by simp⟩
  | cons id ids ih =>
    intro s i
    cases hp : s.protocolManager.Peers.Peer id.key with
    | none =>
      obtain ⟨new, h1, h2, h3, h4⟩ := ih s (i + 1)
      refine ⟨new, ?_, ?_, ?_, ?_⟩
      · simp [Matrix.notifyLoop, hp, h1]
      · intro k
        rw [h2 k]
        by_cases hk : List.take 16 id.String = k
        · subst hk
          have hp2 : s.protocolManager.Peers.Peer (List.take 16 id.String) = none := hp
          simp [hp2]
        · simp [List.countP_cons, hk]
      · intro a ha
        obtain ⟨e1, e2, ⟨id2, hid2, e3⟩, e4⟩ := h3 a ha
        exact ⟨e1, e2, ⟨id2, List.mem_cons_of_mem _ hid2, e3⟩, e4⟩
      · simp only [List.length_cons]
        omega
    | some p =>
      obtain ⟨new, h1, h2, h3, h4⟩ := ih (s.call (Call.fetcherNotify
        { peer := id.key, hash := hash, number := number, time := now i,
          fetchHeader := Requester.RequestOneHeader p,
          fetchBodies := Requester.RequestBodies p })) (i + 1)
      refine ⟨Announce.mk id.key hash number (now i) (Requester.RequestOneHeader p)
          (Requester.RequestBodies p) :: new, ?_, ?_, ?_, ?_⟩
      · rw [Matrix.notifyLoop]
        simp only [hp]
        rw [h1]
        simp [Matrix.call]
      · intro k
        have h2k := h2 k
        simp only [Matrix.call] at h2k
        have hkey : id.key = List.take 16 id.String := rfl
        by_cases hk : List.take 16 id.String = k
        · subst hk
          have hp2 : s.protocolManager.Peers.Peer (List.take 16 id.String) = some p := hp
          simp [List.countP_cons, h2k, hp2, hkey]
        · simp [List.countP_cons, h2k, hk, hkey]
      · intro a ha
        rcases List.mem_cons.1 ha with rfl | ha
        · exact ⟨rfl, rfl, ⟨id, List.mem_cons_self _ _, rfl⟩, p, hp, rfl, rfl⟩
        · obtain ⟨e1, e2, ⟨id2, hid2, e3⟩, e4⟩ := h3 a ha
          exact ⟨e1, e2, ⟨id2, List.mem_cons_of_mem _ hid2, e3⟩,
            by simpa [Matrix.call] using e4⟩
      · simp only [List.length_cons]
        omega

/-- C6, as amended: `FetcherNotify` changes nothing but the call record, to which it
appends only `fetcher.Notify` calls.  The role-holders are the identities of the
registry with the Validator or Broadcast role.  For every 16-character key `k`, the
number of announcements to `k` is the number of role-holders whose identity string has
`k` as its first 16 characters when `k` is in the peer table, and zero when it is not:
one announcement for each role-holder that resolves to a connected peer, none for a
role-holder whose key is not connected, none for a connected peer whose key is the first
16 characters of no role-holder.  Each announcement carries the given hash and number
and the request functions of the peer found under its key, and there are at most as many
announcements as role-holders.  When the peer table is keyed by the first 16 characters
of the peers' own identities and no role-holder has its first 16 characters in common
with a connected peer of another identity, every announcement goes to a connected peer
that is a role-holder itself.  The committee A (Validator), B (Broadcast), C (Passive)
with only A and C connected gives exactly one announcement, to A. -/
theorem FetcherNotify_targets (s : Matrix) (registry : List (NodeID × Role))
    (now : Nat → Nat) (hash : Hash) (number : Nat) :
    (∀ id, id ∈ GetRolesByGroup registry [Role.Validator, Role.Broadcast] ↔
      (id, Role.Validator) ∈ registry ∨ (id, Role.Broadcast) ∈ registry) ∧
    s.FetcherNotify registry now hash number
      = { s with calls := s.calls ++
          (s.issued (s.FetcherNotify registry now hash number)).map Call.fetcherNotify } ∧
    (∀ k, (s.issued (s.FetcherNotify registry now hash number)).countP
        (fun a => decide (a.peer = k))
      = if (s.protocolManager.Peers.Peer k).isSome
        then (GetRolesByGroup registry [Role.Validator, Role.Broadcast]).countP
          (fun id => decide (List.take 16 id.String = k))
        else 0) ∧
    (∀ a ∈ s.issued (s.FetcherNotify registry now hash number),
      a.hash = hash ∧ a.number = number ∧
      (∃ id ∈ GetRolesByGroup registry [Role.Validator, Role.Broadcast],
        a.peer = List.take 16 id.String) ∧
      ∃ p, s.protocolManager.Peers.Peer a.peer = some p ∧
        a.fetchHeader = Requester.RequestOneHeader p ∧
        a.fetchBodies = Requester.RequestBodies p) ∧
    (s.issued (s.FetcherNotify registry now hash number)).length
      ≤ (GetRolesByGroup registry [Role.Validator, Role.Broadcast]).length ∧
    ((∀ e ∈ s.protocolManager.Peers.peers, e.1 = List.take 16 e.2.ID.String) →
      (∀ id ∈ GetRolesByGroup registry [Role.Validator, Role.Broadcast],
        ∀ e ∈ s.protocolManager.Peers.peers,
          List.take 16 e.2.ID.String = List.take 16 id.String → e.2.ID = id) →
      ∀ a ∈ s.issued (s.FetcherNotify registry now hash number),
        ∃ p, (a.peer, p) ∈ s.protocolManager.Peers.peers ∧
          a.fetchHeader = Requester.RequestOneHeader p ∧
          a.fetchBodies = Requester.RequestBodies p ∧
          p.ID ∈ GetRolesByGroup registry [Role.Validator, Role.Broadcast]) ∧
    nodeAC.issued (nodeAC.FetcherNotify committeeABC clock 77 10)
      = [{ peer := List.replicate 16 'a', hash := 77, number := 10, time := 1000,
           fetchHeader := Requester.RequestOneHeader { ID := idA, conn := 1 },
           fetchBodies := Requester.RequestBodies { ID := idA, conn := 1 } }] := by
  obtain ⟨new, h1, h2, h3, h4⟩ := notifyLoop_spec hash number now
    (GetRolesByGroup registry [Role.Validator, Role.Broadcast]) s 0
  have hrun : s.FetcherNotify registry now hash number
      = { s with calls := s.calls ++ new.map Call.fetcherNotify } := h1
  have hiss : s.issued (s.FetcherNotify registry now hash number) = new := by
    rw [hrun]
    simp [Matrix.issued, announcements_map]
  rw [hiss]
  refine ⟨?_, hrun, h2, h3, h4, ?_, by decide⟩
  · intro id
    simp only [GetRolesByGroup, List.mem_map, List.mem_filter, decide_eq_true_eq,
      List.mem_cons, List.mem_singleton, List.not_mem_nil, or_false]
    constructor
    · rintro ⟨⟨id2, r⟩, ⟨hmem, hr⟩, rfl⟩
      rcases hr with hr | hr
      · exact Or.inl (by simpa [← hr] using hmem)
      · exact Or.inr (by simpa [← hr] using hmem)
    · rintro (h | h)
      · exact ⟨(id, Role.Validator), ⟨h, Or.inl rfl⟩, rfl⟩
      · exact ⟨(id, Role.Broadcast), ⟨h, Or.inr rfl⟩, rfl⟩
  · intro hkey hcol a ha
    obtain ⟨_, _, ⟨id, hid, hpeer⟩, p, hp, hh, hb⟩ := h3 a ha
    have hmem := Peer_mem _ _ _ hp
    have hk : a.peer = List.take 16 p.ID.String := hkey _ hmem
    have hidp : p.ID = id := hcol id hid _ hmem (by rw [← hk, hpeer])
    exact ⟨p, hmem, hh, hb, by rw [hidp]; exact hid⟩

/-- Witness of C6 (amended) at the committee A, B, C with A and C connected: the peer
table is keyed by the peers' own first 16 characters, there is no collision, and every
announcement goes to a connected role-holder. -/
theorem FetcherNotify_targets_witness :
    ∀ a ∈ nodeAC.issued (nodeAC.FetcherNotify committeeABC clock 77 10),
      ∃ p, (a.peer, p) ∈ nodeAC.protocolManager.Peers.peers ∧
        a.fetchHeader = Requester.RequestOneHeader p ∧
        a.fetchBodies = Requester.RequestBodies p ∧
        p.ID ∈ GetRolesByGroup committeeABC [Role.Validator, Role.Broadcast] :=
  (FetcherNotify_targets nodeAC committeeABC clock 77 10).2.2.2.2.2.1
    (by decide) (by decide)

/-- C6 fails as stated: X (Validator) is not connected, Y (Passive) is connected, and the
two identities have their first 16 characters in common.  The lookup for X finds the
connection of Y, and the one announcement goes to Y, a connected peer that holds neither
role. -/
theorem FetcherNotify_collision_counterexample :
    GetRolesByGroup registryXY [Role.Validator, Role.Broadcast] = [idX] ∧
    idY ∉ GetRolesByGroup registryXY [Role.Validator, Role.Broadcast] ∧
    (∀ e ∈ nodeY.protocolManager.Peers.peers, e.2.ID ≠ idX) ∧
    (∀ e ∈ nodeY.protocolManager.Peers.peers, e.1 = List.take 16 e.2.ID.String) ∧
    nodeY.issued (nodeY.FetcherNotify registryXY clock 77 10)
      = [{ peer := List.replicate 16 'a', hash := 77, number := 10, time := 1000,
           fetchHeader := Requester.RequestOneHeader { ID := idY, conn := 3 },
           fetchBodies := Requester.RequestBodies { ID := idY, conn := 3 } }] := by
  decide

/-! ## Theorems: lifecycle -/

/-- C7, as amended: `Stop` on a node whose shutdown channel is open returns nil, closes
the shutdown channel and closes the storage handle once.  A second `Stop` is not
guarded: it closes the storage handle a second time and then panics on closing the
shutdown channel that is already closed. -/
theorem Stop_twice (s : Matrix) (h : s.shutdownChan = false) :
    (s.Stop).1 = Outcome.returned none ∧
    (s.Stop).2.shutdownChan = true ∧
    (s.Stop).2.calls.count Call.chainDbClose = s.calls.count Call.chainDbClose + 1 ∧
    ((s.Stop).2.Stop).1 = Outcome.panicked ∧
    ((s.Stop).2.Stop).2.calls.count Call.chainDbClose = s.calls.count Call.chainDbClose + 2 := by
  rcases s with ⟨cfg, sh, pm, les, eng, mb, calls⟩
  simp only at h
  subst h
  cases les <;> simp [Matrix.Stop, Matrix.call, List.count_append, List.count_cons]

/-- Witness of C7 (amended) at the node `node0`. -/
theorem Stop_twice_witness :
    (node0.Stop).1 = Outcome.returned none ∧ ((node0.Stop).2.Stop).1 = Outcome.panicked :=
  have h := Stop_twice node0 rfl
  ⟨h.1, h.2.2.2.1⟩

/-- C7 fails as stated: two `Stop` calls in sequence on `node0`; the first returns nil,
the second panics (close of a closed channel) after the storage handle has been closed a
second time. -/
theorem Stop_twice_counterexample :
    (node0.Stop).1 = Outcome.returned none ∧
    ((node0.Stop).2.Stop).1 = Outcome.panicked ∧
    ((node0.Stop).2.Stop).2.calls.count Call.chainDbClose = 2 := by
  decide

/-- In the range of `int`, `wrapInt` changes nothing. -/
theorem wrapInt_of_isInt (x : Int) (h : isInt x) : wrapInt x = x := by
  unfold isInt at h
  unfold wrapInt
  omega

/-- C9, as amended: with `LightServ > 0` and `LightPeers >= MaxPeers`, `Start` returns
the error "invalid peer config" and does not start the network manager; with
`LightServ > 0` and `LightPeers < MaxPeers` it starts the network manager with
`MaxPeers - LightPeers` in the wrap-around arithmetic of `int`, which is the exact
difference and at least 1 whenever that difference is below `2^63`, as it is for
`LightPeers >= 0`; with `LightServ <= 0` it starts the network manager with `MaxPeers`. -/
theorem Start_peer_budget (s : Matrix) (srvr : Server) :
    (0 < s.config.LightServ → s.config.LightPeers ≥ srvr.MaxPeers →
      s.Start srvr = (some (Error.invalidPeerConfig s.config.LightPeers srvr.MaxPeers),
        { s with calls := s.calls ++ [Call.startBloomHandlers, Call.NewPublicNetAPI] })) ∧
    (0 < s.config.LightServ → s.config.LightPeers < srvr.MaxPeers →
      (s.Start srvr).1 = none ∧
      (s.Start srvr).2.calls = s.calls ++
        [Call.startBloomHandlers, Call.NewPublicNetAPI,
          Call.protocolManagerStart (wrapInt (srvr.MaxPeers - s.config.LightPeers))] ++
        (if s.lesServer then [Call.lesServerStart] else []) ∧
      (srvr.MaxPeers - s.config.LightPeers < 2 ^ 63 →
        wrapInt (srvr.MaxPeers - s.config.LightPeers) = srvr.MaxPeers - s.config.LightPeers ∧
        1 ≤ wrapInt (srvr.MaxPeers - s.config.LightPeers)) ∧
      (isInt srvr.MaxPeers → 0 ≤ s.config.LightPeers →
        srvr.MaxPeers - s.config.LightPeers < 2 ^ 63)) ∧
    (s.config.LightServ ≤ 0 →
      (s.Start srvr).1 = none ∧
      (s.Start srvr).2.calls = s.calls ++
        [Call.startBloomHandlers, Call.NewPublicNetAPI,
          Call.protocolManagerStart srvr.MaxPeers] ++
        (if s.lesServer then [Call.lesServerStart] else [])) := by
  rcases s with ⟨cfg, sh, pm, les, eng, mb, calls⟩
  refine ⟨?_, ?_, ?_⟩
  · intro h1 h2
    simp [Matrix.Start, Matrix.call, h1, h2]
  · intro h1 h2
    have h3 : ¬ (srvr.MaxPeers ≤ cfg.LightPeers) := by
      simp only at h2
      omega
    refine ⟨?_, ?_, ?_, ?_⟩
    · simp [Matrix.Start, Matrix.call, h1, h3]
    · cases les <;> simp [Matrix.Start, Matrix.call, h1, h3]
    · intro h4
      simp only at h2 h4 ⊢
      have h5 : wrapInt (srvr.MaxPeers - cfg.LightPeers) = srvr.MaxPeers - cfg.LightPeers :=
        wrapInt_of_isInt _ ⟨by omega, h4⟩
      rw [h5]
      exact ⟨rfl, by omega⟩
    · intro h4 h5
      unfold isInt at h4
      simp only at h5 ⊢
      omega
  · intro h1
    have h2 : ¬ (0 < cfg.LightServ) := by
      simp only at h1
      omega
    constructor
    · simp [Matrix.Start, Matrix.call, h2]
    · cases les <;> simp [Matrix.Start, Matrix.call, h2]

/-- Witness of C9 (amended): 5 of 25 peer slots reserved for light clients; the network
manager is started with 20. -/
theorem Start_peer_budget_witness :
    ((nodeLight 5).Start { MaxPeers := 25 }).1 = none ∧
    ((nodeLight 5).Start { MaxPeers := 25 }).2.calls =
      [Call.startBloomHandlers, Call.NewPublicNetAPI, Call.protocolManagerStart 20] ∧
    (1 : Int) ≤ wrapInt (25 - 5) :=
  have h := (Start_peer_budget (nodeLight 5) { MaxPeers := 25 }).2.1 (by decide) (by decide)
  ⟨h.1, by decide, (h.2.2.1 (by decide)).2⟩

/-- C9 fails as stated: with `LightServ = 1`, `LightPeers = -1` and
`MaxPeers = 2^63 - 1`, all values of type `int` with `LightPeers < MaxPeers`, the
subtraction wraps around and the network manager is started with `-2^63`, which is not
at least 1. -/
theorem Start_peer_budget_counterexample :
    isInt 1 ∧ isInt (-1) ∧ isInt (2 ^ 63 - 1) ∧ (-1 : Int) < 2 ^ 63 - 1 ∧
    ((nodeLight (-1)).Start { MaxPeers := 2 ^ 63 - 1 }).1 = none ∧
    ((nodeLight (-1)).Start { MaxPeers := 2 ^ 63 - 1 }).2.calls =
      [Call.startBloomHandlers, Call.NewPublicNetAPI,
        Call.protocolManagerStart (-(2 ^ 63))] ∧
    ¬ ((1 : Int) ≤ -(2 ^ 63)) := by
  refine ⟨?_, ?_, ?_, by decide, by decide, by decide, by decide⟩ <;>
    (unfold isInt; constructor <;> decide)

/-! ## Theorems: construction -/

/-- C8, as amended: when the stored chain version is newer than the supported one, `New`
never overwrites the stored version marker, and it returns nil exactly when it returns an
error.  If `SkipBcVersionCheck` is off, `New` fails and returns nil, whatever the rest of
the configuration is; its error is the version-mismatch error when the steps before the
version check succeed (the sync mode is valid and not light sync, the database opens,
genesis setup fails at most with a configuration compatibility error), and the error of
the first of these steps that fails otherwise.  If `SkipBcVersionCheck` is on, the
version is not checked and `New` returns no version-mismatch error. -/
theorem New_newer_version (env : Collaborators) (config : Config) (disk : Database)
    (hnewer : env.BlockChainVersion < disk.version) :
    (New env config disk).2 = disk ∧
    ((New env config disk).1.1 = none ↔ (New env config disk).1.2 ≠ none) ∧
    (config.SkipBcVersionCheck = false →
      (New env config disk).1.1 = none ∧ (New env config disk).1.2 ≠ none) ∧
    (config.SkipBcVersionCheck = false → config.SyncMode ≠ env.LightSync →
      env.IsValid config.SyncMode = true → env.CreateDB = none →
      (∀ e, env.genesisErr ≠ some (GenesisError.otherError e)) →
      (New env config disk).1
        = (none, some (Error.versionMismatch disk.version env.BlockChainVersion))) ∧
    (config.SkipBcVersionCheck = true →
      ∀ a b, (New env config disk).1.2 ≠ some (Error.versionMismatch a b)) ∧
    (config.SyncMode = env.LightSync →
      (New env config disk).1 = (none, some Error.lightSync)) ∧
    (config.SyncMode ≠ env.LightSync → env.IsValid config.SyncMode = false →
      (New env config disk).1 = (none, some (Error.invalidSyncMode config.SyncMode))) ∧
    (config.SyncMode ≠ env.LightSync → env.IsValid config.SyncMode = true →
      ∀ e, env.CreateDB = some e →
        (New env config disk).1 = (none, some (Error.collaborator e))) ∧
    (config.SyncMode ≠ env.LightSync → env.IsValid config.SyncMode = true →
      env.CreateDB = none → ∀ e, env.genesisErr = some (GenesisError.otherError e) →
        (New env config disk).1 = (none, some (Error.collaborator e))) := by
  have hne : disk.version ≠ env.BlockChainVersion := by omega
  have hnz : disk.version ≠ 0 := by omega
  have hasm : ∀ a b, New.assemble env config ≠ Except.error (Error.versionMismatch a b) := by
    intro a b
    unfold New.assemble
    repeat' split
    all_goals simp
  have hearly : (config.SyncMode = env.LightSync →
        (New env config disk).1 = (none, some Error.lightSync)) ∧
      (config.SyncMode ≠ env.LightSync → env.IsValid config.SyncMode = false →
        (New env config disk).1 = (none, some (Error.invalidSyncMode config.SyncMode))) ∧
      (config.SyncMode ≠ env.LightSync → env.IsValid config.SyncMode = true →
        ∀ e, env.CreateDB = some e →
          (New env config disk).1 = (none, some (Error.collaborator e))) ∧
      (config.SyncMode ≠ env.LightSync → env.IsValid config.SyncMode = true →
        env.CreateDB = none → ∀ e, env.genesisErr = some (GenesisError.otherError e) →
          (New env config disk).1 = (none, some (Error.collaborator e))) := by
    refine ⟨?_, ?_, ?_, ?_⟩
    · intro h
      simp [New, h]
    · intro h1 h2
      simp [New, h1, h2]
    · intro h1 h2 e h3
      simp [New, h1, h2, h3]
    · intro h1 h2 h3 e h4
      simp [New, h1, h2, h3, h4]
  cases hskip : config.SkipBcVersionCheck with
  | false =>
    have hvc : New.versionCheck env config disk
        = (some (Error.versionMismatch disk.version env.BlockChainVersion), disk) := by
      simp [New.versionCheck, hskip, hne, hnz]
    have hfail : (New env config disk).1.1 = none ∧ (New env config disk).1.2 ≠ none := by
      simp only [New, hvc]
      repeat' split
      all_goals simp
    refine ⟨?_, ?_, ?_, ?_, ?_, hearly⟩
    · simp only [New, hvc]
      repeat' split
      all_goals rfl
    · exact ⟨fun _ => hfail.2, fun _ => hfail.1⟩
    · intro _
      exact hfail
    · intro _ hlight hvalid hdb hgen
      simp only [New, hvc, hlight, hvalid, hdb]
      cases hg : env.genesisErr with
      | none => simp
      | some g =>
        cases g with
        | ConfigCompatError => simp
        | otherError e => exact absurd hg (hgen e)
    · intro hcontra
      exact absurd hcontra (by simp)
  | true =>
    have hvc : New.versionCheck env config disk = (none, disk) := by
      simp [New.versionCheck, hskip]
    refine ⟨?_, ?_, ?_, ?_, ?_, hearly⟩
    · simp only [New, hvc]
      repeat' split
      all_goals rfl
    · simp only [New, hvc]
      repeat' split
      all_goals simp
    · intro hcontra
      exact absurd hcontra (by simp)
    · intro hcontra
      exact absurd hcontra (by simp)
    · intro _ a b
      have h := hasm a b
      simp only [New, hvc]
      repeat' split
      all_goals simp_all

/-- Witness of C8 (amended): stored version 4, supported version 3, default
configuration; `New` fails with the version-mismatch error, returns nil, and the marker
stays 4. -/
theorem New_newer_version_witness :
    (New env0 config0 { version := 4 }).1 = (none, some (Error.versionMismatch 4 3)) ∧
    (New env0 config0 { version := 4 }).1.1 = none ∧
    (New env0 config0 { version := 4 }).2 = { version := 4 } :=
  have h := New_newer_version env0 config0 { version := 4 } (by decide)
  ⟨h.2.2.2.1 rfl (by decide) rfl rfl (by simp [env0]), (h.2.2.1 rfl).1, h.1⟩

/-- C8 fails as stated: with stored version 4 and supported version 3, a configuration
with `SkipBcVersionCheck` set makes `New` return an orchestrator and a nil error; and a
configuration in light sync mode makes `New` fail with another error than version
mismatch. -/
theorem New_newer_version_counterexample :
    env0.BlockChainVersion < (Database.mk 4).version ∧
    (New env0 { config0 with SkipBcVersionCheck := true } { version := 4 }).1.2 = none ∧
    (New env0 { config0 with SkipBcVersionCheck := true } { version := 4 }).1.1 ≠ none ∧
    (New env0 { config0 with SyncMode := 2 } { version := 4 }).1
      = (none, some Error.lightSync) := by
  decide

/-- C10: the result of `makeExtraData` is never longer than
`params.MaximumExtraDataSize`; a non-empty `extra` within the limit is returned as it is,
and a non-empty `extra` above the limit gives the empty (nil) result. -/
theorem makeExtraData_bounded (defaultExtra : List Byte) (MaximumExtraDataSize : Nat)
    (extra : List Byte) :
    (makeExtraData defaultExtra MaximumExtraDataSize extra).length ≤ MaximumExtraDataSize ∧
    (extra ≠ [] → extra.length ≤ MaximumExtraDataSize →
      makeExtraData defaultExtra MaximumExtraDataSize extra = extra) ∧
    (extra ≠ [] → MaximumExtraDataSize < extra.length →
      makeExtraData defaultExtra MaximumExtraDataSize extra = []) := by
  refine ⟨?_, ?_, ?_⟩
  · unfold makeExtraData
    by_cases h0 : extra.length = 0 <;>
      by_cases h1 : defaultExtra.length > MaximumExtraDataSize <;>
      by_cases h2 : extra.length > MaximumExtraDataSize <;>
      simp [h0, h1, h2] <;> omega
  · intro hne hle
    have hlen : extra.length ≠ 0 := by
      simpa [List.length_eq_zero] using hne
    simp [makeExtraData, hlen]
    omega
  · intro hne hlt
    have hlen : extra.length ≠ 0 := by
      simpa [List.length_eq_zero] using hne
    simp [makeExtraData, hlen, hlt]

/-- Witness of C10 with limit 3: two bytes are kept, four bytes give the empty result. -/
theorem makeExtraData_bounded_witness :
    makeExtraData [9] 3 [4, 5] = [4, 5] ∧ makeExtraData [9] 3 [4, 5, 6, 7] = [] :=
  ⟨(makeExtraData_bounded [9] 3 [4, 5]).2.1 (by decide) (by decide),
   (makeExtraData_bounded [9] 3 [4, 5, 6, 7]).2.2 (by decide) (by decide)⟩

end man
